import Mathlib

set_option linter.unusedVariables false

/- Verification of the computer-use template of onkernel/create-kernel-app.

   The embedding follows the Python sources:
   - templates/python/computer-use/loop.py (sampling loop, context policies)
   - templates/python/computer-use/utils/message_processing.py (same policies)
   - templates/python/computer-use/tools/collection.py (tool registry/dispatch)
   - templates/python/computer-use/tools/computer.py (computer tool, validation)
   - templates/python/computer-use/tools/utils/validator.py (ActionValidator)
   - templates/python/computer-use/tools/utils/keyboard.py (key normalizer)

   Messages are anthropic-style dicts; only the keys the embedded code reads
   or writes are modelled.  Python ints are Int, Python floats are Rat,
   Python `//` and `%` (floor conventions) are Int.fdiv and Int.fmod, and a
   raised exception is an Except.error. -/

/-- The only cache-control value the code ever writes: {"type": "ephemeral"}. -/
inductive CacheControl
  | ephemeral
deriving DecidableEq, Repr

/-- A content item inside a tool_result "content" list: a {"type":"text"} dict
    or a {"type":"image","source":{...,"data":...}} dict.  Only the fields the
    embedded code inspects are kept. -/
inductive TRBlock
  | text (text : String)
  | image (data : String)
deriving DecidableEq, Repr

/-- A tool_result "content" value: either a plain string (the error path of
    _make_api_tool_result) or a list of text/image items. -/
inductive TRContent
  | str (s : String)
  | blocks (items : List TRBlock)
deriving DecidableEq, Repr

/-- A Python number as the coordinate validators see it: the isinstance checks
    distinguish int from float, so the embedding does too. -/
inductive PyNum
  | int (n : Int)
  | float (q : Rat)
deriving DecidableEq, Repr

/-- The Python value bound to a "coordinate" argument: a tuple or a list of
    arbitrary length (the validators check the length themselves). -/
inductive CoordArg
  | tup (xs : List PyNum)
  | lst (xs : List PyNum)
deriving DecidableEq, Repr

/-- The fields of a model-issued tool_input dict that any embedded tool reads;
    a key absent from the dict is none. -/
structure ToolInput where
  action : Option String := none
  text : Option String := none
  coordinate : Option CoordArg := none
  scroll_direction : Option String := none
  scroll_amount : Option PyNum := none
  duration : Option PyNum := none
  key : Option String := none
deriving DecidableEq, Repr

/-- The tagged body of one top-level content block. -/
inductive BlockBody
  | text (text : String)
  | image (data : String)
  | toolUse (id name : String) (input : ToolInput)
  | toolResult (tool_use_id : String) (content : TRContent) (is_error : Bool)
  | thinking (thinking : String) (signature : Option String)
deriving DecidableEq, Repr

/-- One dict of a message's "content" list; the optional "cache_control" key is
    modelled as a field present on every block. -/
structure ContentBlock where
  body : BlockBody
  cache_control : Option CacheControl := none
deriving DecidableEq, Repr

inductive Role
  | user
  | assistant
deriving DecidableEq, Repr

/-- message["content"]: either a plain string or a list of content blocks. -/
inductive MsgContent
  | str (s : String)
  | blocks (items : List ContentBlock)
deriving DecidableEq, Repr

structure Message where
  role : Role
  content : MsgContent
deriving DecidableEq, Repr

/-- message["role"] == "user" and isinstance(message["content"], list). -/
def isUserList (m : Message) : Bool :=
  m.role == .user && (match m.content with | .blocks _ => true | .str _ => false)

/-- Rewrite the last element of a list, if there is one. -/
def modifyLast (f : α → α) : List α → List α
  | [] => []
  | [a] => [f a]
  | a :: b :: rest => a :: modifyLast f (b :: rest)

def setCC (cc : Option CacheControl) (b : ContentBlock) : ContentBlock :=
  { b with cache_control := cc }

/-- content[-1]["cache_control"] = {"type": "ephemeral"}; a message whose
    content is a string or an empty list is left unchanged (the
    message_processing.py variant guards `if last_content`). -/
def markLast (m : Message) : Message :=
  match m.content with
  | .str s => ⟨m.role, .str s⟩
  | .blocks items => ⟨m.role, .blocks (modifyLast (setCC (some .ephemeral)) items)⟩

/-- content[-1].pop("cache_control", None). -/
def clearLast (m : Message) : Message :=
  match m.content with
  | .str s => ⟨m.role, .str s⟩
  | .blocks items => ⟨m.role, .blocks (modifyLast (setCC none) items)⟩

/-- The newest-to-oldest walk of inject_prompt_caching
    (utils/message_processing.py 98-115; loop.py 277-299 is the same walk,
    assuming non-empty content lists): the input list is newest-first, user
    turns with list content consume a breakpoint and get the marker; once the
    breakpoints run out, the next such turn has its marker popped and the walk
    breaks, leaving everything older untouched. -/
def injectRev : Nat → List Message → List Message
  | _, [] => []
  | bp, m :: rest =>
    if isUserList m then
      match bp with
      | Nat.succ bp1 => markLast m :: injectRev bp1 rest
      | 0 => clearLast m :: rest
    else m :: injectRev bp rest

/-- inject_prompt_caching: breakpoints_remaining = 3, reversed(messages). -/
def inject_prompt_caching (messages : List Message) : List Message :=
  (injectRev 3 messages.reverse).reverse

/-- The image payloads inside one tool_result content list, in order. -/
def trImages : List TRBlock → List String
  | [] => []
  | .image d :: rest => d :: trImages rest
  | .text _ :: rest => trImages rest

/-- The image payloads a content block contributes to the filter's traversal:
    only tool_result blocks whose content is a list are inspected. -/
def blockImages : ContentBlock → List String
  | ⟨.toolResult _ (.blocks items) _, _⟩ => trImages items
  | _ => []

def blocksImages : List ContentBlock → List String
  | [] => []
  | b :: rest => blockImages b ++ blocksImages rest

/-- Images contributed by one message: only list-form content is traversed. -/
def msgImages (m : Message) : List String :=
  match m.content with
  | .str _ => []
  | .blocks items => blocksImages items

/-- All tool_result images across the history, oldest first — exactly the
    traversal order of _maybe_filter_to_n_most_recent_images. -/
def imageSeq : List Message → List String
  | [] => []
  | m :: rest => msgImages m ++ imageSeq rest

def imageCount (messages : List Message) : Nat := (imageSeq messages).length

/-- The filter's inner rebuild of one tool_result content list: drop image
    items while the counter is positive, keep everything else. -/
def dropTR : Int → List TRBlock → Int × List TRBlock
  | n, [] => (n, [])
  | n, .image d :: rest =>
    if 0 < n then dropTR (n - 1) rest
    else
      let (n', r) := dropTR n rest
      (n', .image d :: r)
  | n, .text s :: rest =>
    let (n', r) := dropTR n rest
    (n', .text s :: r)

/-- The mutation step for one collected tool_result block: only list-form
    content is rebuilt (`if isinstance(tool_result.get("content"), list)`). -/
def dropBlock : Int → ContentBlock → Int × ContentBlock
  | n, ⟨.toolResult id (.blocks items) err, cc⟩ =>
    let (n', items') := dropTR n items
    (n', ⟨.toolResult id (.blocks items') err, cc⟩)
  | n, b => (n, b)

def dropBlocks : Int → List ContentBlock → Int × List ContentBlock
  | n, [] => (n, [])
  | n, b :: rest =>
    let (n1, b') := dropBlock n b
    let (n2, rest') := dropBlocks n1 rest
    (n2, b' :: rest')

def dropMsg : Int → Message → Int × Message
  | n, ⟨r, .str s⟩ => (n, ⟨r, .str s⟩)
  | n, ⟨r, .blocks items⟩ =>
    let (n', items') := dropBlocks n items
    (n', ⟨r, .blocks items'⟩)

def dropMsgs : Int → List Message → Int × List Message
  | n, [] => (n, [])
  | n, m :: rest =>
    let (n1, m') := dropMsg n m
    let (n2, rest') := dropMsgs n1 rest
    (n2, m' :: rest')

/-- _maybe_filter_to_n_most_recent_images (loop.py 205-251).  The tool_result
    blocks are collected by reference and then mutated in collection order,
    which equals threading the removal counter through the history in order.
    images_to_keep is typed int, so the `is None` early return is dead code;
    `%` by min_removal_threshold = 0 is Python's ZeroDivisionError, modelled
    as none. -/
def maybe_filter_images (messages : List Message)
    (images_to_keep min_removal_threshold : Int) : Option (List Message) :=
  if min_removal_threshold = 0 then none
  else
    let total_images : Int := (imageCount messages : Int)
    let images_to_remove := total_images - images_to_keep
    let images_to_remove :=
      images_to_remove - Int.fmod images_to_remove min_removal_threshold
    some (dropMsgs images_to_remove messages).2

/-- Modelled from the spec: tools/base.py is absent from the snapshot; its
    ToolResult carries the optional output, error, base64_image and system
    fields of spec section 3, exactly the fields _make_api_tool_result reads. -/
structure ToolResult where
  output : Option String := none
  error : Option String := none
  base64_image : Option String := none
  system : Option String := none
deriving DecidableEq, Repr

/-- Python truthiness of an optional string: None and "" are falsy. -/
def pyTruthy : Option String → Bool
  | none => false
  | some s => s != ""

/-- _maybe_prepend_system_tool_result (loop.py 338-341). -/
def maybe_prepend_system (result : ToolResult) (result_text : String) : String :=
  match result.system with
  | some sys => if sys != "" then s!"<system>{sys}</system>\n{result_text}" else result_text
  | none => result_text

/-- _make_api_tool_result (loop.py 302-335): an error result becomes a string
    content with is_error true; otherwise text then image blocks. -/
def make_api_tool_result (result : ToolResult) (tool_use_id : String) : ContentBlock :=
  if pyTruthy result.error then
    ⟨.toolResult tool_use_id
        (.str (maybe_prepend_system result (result.error.getD ""))) true, none⟩
  else
    let c1 : List TRBlock :=
      if pyTruthy result.output
      then [.text (maybe_prepend_system result (result.output.getD ""))] else []
    let c2 : List TRBlock :=
      if pyTruthy result.base64_image
      then [.image (result.base64_image.getD "")] else []
    ⟨.toolResult tool_use_id (.blocks (c1 ++ c2)) false, none⟩

/-- The value list of the Action enum (tools/types/computer.py). -/
def actionValues : List String :=
  ["mouse_move", "left_click", "right_click", "middle_click", "double_click",
   "triple_click", "left_click_drag", "left_mouse_down", "left_mouse_up",
   "key", "type", "hold_key", "screenshot", "cursor_position", "scroll", "wait"]

/-- A raised Python exception, by kind. -/
inductive PyErr
  | valueError (msg : String)
  | toolError (msg : String)
  | unboundLocal
deriving DecidableEq, Repr

/-- A registered tool's call behaviour; the page automation it performs is
    external I/O, abstracted as a function of the tool_input. -/
def Tool := ToolInput → Except PyErr ToolResult

/-- ToolCollection (tools/collection.py 88-95): name-to-instance dict built
    from the tool list; a later duplicate name overwrites an earlier one. -/
structure ToolCollection where
  tools : List (String × Tool)

def toolGet (tc : ToolCollection) (name : String) : Option Tool :=
  tc.tools.reverse.lookup name

/-- ToolCollection.run (tools/collection.py 102-125): an unknown name and a
    missing or unrecognized "action" value raise ValueError; membership of the
    raw value in the Action enum follows Python 3.12 value-based `in`. -/
def toolCollectionRun (tc : ToolCollection) (name : String)
    (tool_input : ToolInput) : Except PyErr ToolResult :=
  match toolGet tc name with
  | none => .error (.valueError s!"Tool {name} not found")
  | some tool =>
    match tool_input.action with
    | some a =>
      if a ∈ actionValues then tool tool_input
      else .error (.valueError s!"Invalid action {a} for tool {name}")
    | none => .error (.valueError s!"Invalid action None for tool {name}")

/-- A model response already normalized by _response_to_params. -/
structure ModelResponse where
  stop_reason : String
  content : List ContentBlock

/-- The tool-dispatch section of one sampling_loop iteration (loop.py
    188-197): run every tool_use block sequentially, collecting one
    tool_result each; exceptions propagate (there is no try/except). -/
def runToolUses (tc : ToolCollection) : List ContentBlock → Except PyErr (List ContentBlock)
  | [] => .ok []
  | ⟨.toolUse id name input, _⟩ :: rest =>
    match toolCollectionRun tc name input with
    | .error e => .error e
    | .ok result =>
      match runToolUses tc rest with
      | .error e => .error e
      | .ok rest' => .ok (make_api_tool_result result id :: rest')
  | _ :: rest => runToolUses tc rest

/-- What one iteration of the sampling loop does after the model response. -/
inductive StepOutcome
  | terminated (messages : List Message)
  | next (messages : List Message)
deriving DecidableEq, Repr

/-- loop.py 164-202: append the assistant turn; stop on the end_turn stop
    reason; otherwise dispatch the tool calls and append them as a user turn,
    or stop if there were none. -/
def postResponse (tc : ToolCollection) (messages : List Message)
    (response : ModelResponse) : Except PyErr StepOutcome :=
  let messages := messages ++ [⟨.assistant, .blocks response.content⟩]
  if response.stop_reason == "end_turn" then .ok (.terminated messages)
  else
    match runToolUses tc response.content with
    | .error e => .error e
    | .ok trc =>
      if trc.isEmpty then .ok (.terminated messages)
      else .ok (.next (messages ++ [⟨.user, .blocks trc⟩]))

/-- Python `x or 0` for the optional image limit. -/
def pyOrZero : Option Int → Int
  | none => 0
  | some n => if n == 0 then 0 else n

/-- loop.py 122-145: the part of each iteration that touches the message
    history and the only_n_most_recent_images variable before the API call.
    Client construction, beta flags and the system-prompt cache marker do not
    touch the history and are omitted.  enable_prompt_caching is set False and
    then unconditionally True; inside that branch the history gets the cache
    markers and only_n_most_recent_images is overwritten with 0; the filter
    then runs only if the (overwritten) value is truthy.  Returns the history
    handed to the API together with the mutated only_n_most_recent_images. -/
def preRequestHistory (messages : List Message)
    (only_n_most_recent_images : Option Int) :
    Option (List Message × Option Int) :=
  let enable_prompt_caching := false
  let image_truncation_threshold := pyOrZero only_n_most_recent_images
  let enable_prompt_caching := true
  let (messages, only_n) :=
    if enable_prompt_caching then
      (inject_prompt_caching messages, some (0 : Int))
    else (messages, only_n_most_recent_images)
  if (match only_n with | some n => !(n == 0) | none => false) then
    (maybe_filter_images messages (only_n.getD 0) image_truncation_threshold).map
      (fun l => (l, only_n))
  else some (messages, only_n)

/-- The textual repr used inside the validators' f-string messages; floats
    print in Rat notation rather than Python float notation, which only
    affects message text, never control flow. -/
def reprNum : PyNum → String
  | .int n => toString n
  | .float q => toString q

def tupleStr (xs : List PyNum) : String :=
  "(" ++ String.intercalate ", " (xs.map reprNum) ++ ")"

def isIntNum : PyNum → Bool
  | .int _ => true
  | .float _ => false

def numNonneg : PyNum → Bool
  | .int n => decide (0 ≤ n)
  | .float q => decide (0 ≤ q)

/-- BaseComputerTool.validate_coordinates (tools/computer.py 130-146): lists
    convert to tuples, length must be 2, components must be non-negative ints
    (isinstance(x, int) rejects floats); None passes through. -/
def validate_coordinates : Option CoordArg → Except PyErr (Option (Int × Int))
  | none => .ok none
  | some c =>
    let xs := match c with | .tup xs => xs | .lst xs => xs
    match xs with
    | [.int a, .int b] =>
      if a < 0 ∨ b < 0 then
        .error (.toolError (tupleStr [.int a, .int b] ++
          " must be a tuple or list of non-negative ints"))
      else .ok (some (a, b))
    | [x, y] =>
      .error (.toolError (tupleStr [x, y] ++
        " must be a tuple or list of non-negative ints"))
    | other =>
      .error (.toolError (tupleStr other ++
        " must be a tuple or list of length 2"))

/-- ActionValidator.validate_and_get_coordinates (tools/utils/validator.py
    29-40): the same shape checks, but components may be ints or floats
    (isinstance(i, (int, float))), still non-negative. -/
def validate_and_get_coordinates (c : CoordArg) : Except PyErr (List PyNum) :=
  let xs := match c with | .tup xs => xs | .lst xs => xs
  if xs.length ≠ 2 then
    .error (.toolError (tupleStr xs ++ " must be a tuple or list of length 2"))
  else if ¬ (xs.all numNonneg) then
    .error (.toolError (tupleStr xs ++ " must contain non-negative numbers"))
  else .ok xs

/-- MODIFIER_KEY_MAP (tools/computer.py 22-27 and tools/utils/keyboard.py
    3-8, identical). -/
def modifierKeyMap : List (String × String) :=
  [("ctrl", "Control"), ("alt", "Alt"), ("command", "Meta"), ("win", "Meta")]

/-- KEY_MAP of tools/computer.py 30-60 (keyboard.py 11-40 is the same table
    without the super_l entry). -/
def keyMapComputer : List (String × String) :=
  [("return", "Enter"), ("space", " "), ("left", "ArrowLeft"),
   ("right", "ArrowRight"), ("up", "ArrowUp"), ("down", "ArrowDown"),
   ("home", "Home"), ("end", "End"), ("pageup", "PageUp"),
   ("pagedown", "PageDown"), ("delete", "Delete"), ("backspace", "Backspace"),
   ("tab", "Tab"), ("esc", "Escape"), ("escape", "Escape"),
   ("insert", "Insert"), ("super_l", "Meta"),
   ("f1", "F1"), ("f2", "F2"), ("f3", "F3"), ("f4", "F4"), ("f5", "F5"),
   ("f6", "F6"), ("f7", "F7"), ("f8", "F8"), ("f9", "F9"), ("f10", "F10"),
   ("f11", "F11"), ("f12", "F12")]

/-- _key_map of tools/utils/keyboard.py 11-40. -/
def keyMapKeyboard : List (String × String) :=
  keyMapComputer.filter (fun p => p.fst != "super_l")

def pyLower (s : String) : String := (s.toList.map Char.toLower).asString

/-- Python's str.split("+") on the character list of a string. -/
def splitCharsOnPlus : List Char → List (List Char)
  | [] => [[]]
  | c :: rest =>
    let r := splitCharsOnPlus rest
    if c = Char.ofNat 43 then [] :: r
    else
      match r with
      | h :: t => (c :: h) :: t
      | [] => [[c]]

def pySplitPlus (s : String) : List String :=
  (splitCharsOnPlus s.toList).map List.asString

/-- BaseComputerTool.map_key (tools/computer.py 148-168): modifier table
    first, then the key table, then a two-part "mod+key" split (Python's
    `"+" in key` holds exactly when the split has at least two parts),
    otherwise the key is returned as is. -/
def map_key (key : String) : String :=
  match modifierKeyMap.lookup (pyLower key) with
  | some v => v
  | none =>
    match keyMapComputer.lookup (pyLower key) with
    | some v => v
    | none =>
      if (pySplitPlus key).length ≥ 2 then
        match pySplitPlus key with
        | [modifier, main_key] =>
          ((modifierKeyMap.lookup (pyLower modifier)).getD modifier) ++ "+" ++
            ((keyMapComputer.lookup (pyLower main_key)).getD main_key)
        | _ => key
      else key

/-- KeyboardUtils.get_playwright_key (tools/utils/keyboard.py 50-67): falsy
    keys raise ValueError; the key table is consulted before the modifier
    table; an unknown key is returned as is, whatever its length. -/
def get_playwright_key (key : String) : Except PyErr String :=
  if key = "" then .error (.valueError "Key cannot be None")
  else
    match keyMapKeyboard.lookup (pyLower key) with
    | some v => .ok v
    | none =>
      match modifierKeyMap.lookup (pyLower key) with
      | some v => .ok v
      | none => .ok key

/-- One Playwright page primitive issued by the computer tool; screenshot
    payloads and page contents are external and not modelled. -/
inductive PageEffect
  | mouseMove (x y : Int)
  | mouseDown (button : String)
  | mouseUp (button : String)
  | click (x y : Int) (button : String)
  | clickCount (x y : Int) (count : Nat)
  | dblclick (x y : Int)
  | keyPress (k : String)
  | keyDown (k : String)
  | keyUp (k : String)
  | typeChunk (s : String)
  | wheel (dx dy : Rat)
  | evalDimensions
  | sleep (seconds : Rat)
  | screenshot
deriving DecidableEq, Repr

/-- MOUSE_BUTTONS (tools/computer.py 90-94). -/
def mouseButtons : List (String × String) :=
  [("left_click", "left"), ("right_click", "right"), ("middle_click", "middle")]

/-- chunks(s, 50) with TYPING_GROUP_SIZE = 50 (tools/computer.py 101-102). -/
def chunk50 : List Char → List (List Char)
  | [] => []
  | c :: rest => ((c :: rest).take 50) :: chunk50 ((c :: rest).drop 50)
termination_by l => l.length
decreasing_by simp [List.length_drop]; omega

def typeChunks (s : String) : List String :=
  (chunk50 s.toList).map List.asString

def numToRat : PyNum → Rat
  | .int n => (n : Rat)
  | .float q => q

def reprOptNum : Option PyNum → String
  | none => "None"
  | some v => reprNum v

/-- BaseComputerTool.call (tools/computer.py 170-251), with the page effects
    it would issue as the result; the returned ToolResult payload is the
    screenshot data, which is external I/O and not modelled.  The page is
    assumed initialized (loop.py always passes one).  A click-family action
    without a coordinate reads the never-assigned locals x, y: that is
    Python's UnboundLocalError, not a ToolError. -/
def baseCall (action : String) (text : Option String)
    (coordinate : Option CoordArg) : Except PyErr (List PageEffect) :=
  if action = "mouse_move" ∨ action = "left_click_drag" then
    if coordinate = none then
      .error (.toolError s!"coordinate is required for {action}")
    else if text ≠ none then
      .error (.toolError s!"text is not accepted for {action}")
    else
      match validate_coordinates coordinate with
      | .error e => .error e
      | .ok none => .error .unboundLocal
      | .ok (some (x, y)) =>
        if action = "mouse_move" then .ok [.mouseMove x y, .screenshot]
        else .ok [.mouseDown "left", .mouseMove x y, .mouseUp "left", .screenshot]
  else if action = "key" ∨ action = "type" then
    match text with
    | none => .error (.toolError s!"text is required for {action}")
    | some t =>
      if coordinate ≠ none then
        .error (.toolError s!"coordinate is not accepted for {action}")
      else if action = "key" then
        .ok [.keyPress (map_key t), .screenshot]
      else
        .ok ((typeChunks t).flatMap (fun ch => [.typeChunk ch, .screenshot]))
  else if action = "left_click" ∨ action = "right_click" ∨
      action = "double_click" ∨ action = "middle_click" ∨
      action = "screenshot" ∨ action = "cursor_position" then
    if text ≠ none then
      .error (.toolError s!"text is not accepted for {action}")
    else if action = "screenshot" then .ok [.screenshot]
    else if action = "cursor_position" then .ok []
    else
      match validate_coordinates coordinate with
      | .error e => .error e
      | .ok vc =>
        let pre := match vc with
          | some (x, y) => [PageEffect.mouseMove x y]
          | none => []
        match vc with
        | none => .error .unboundLocal
        | some (x, y) =>
          if action = "double_click" then
            .ok (pre ++ [.dblclick x y, .screenshot])
          else
            .ok (pre ++ [.click x y ((mouseButtons.lookup action).getD ""),
              .screenshot])
  else .error (.toolError s!"Invalid action: {action}")

/-- ScrollDirection literals (tools/computer.py 87). -/
def scrollDirections : List String := ["up", "down", "left", "right"]

/-- ComputerTool20250124.call (tools/computer.py 279-398).  page_dimensions
    come from page.evaluate; they are passed in as pageW/pageH.  Branches are
    in source order; unmatched actions fall through to BaseComputerTool.call.
    Messages elide the Python repr quotes around values. -/
def call20250124 (pageW pageH : Int) (action : String) (text : Option String)
    (coordinate : Option CoordArg) (scroll_direction : Option String)
    (scroll_amount : Option PyNum) (duration : Option PyNum)
    (key : Option String) : Except PyErr (List PageEffect) :=
  if action = "left_mouse_down" ∨ action = "left_mouse_up" then
    if coordinate ≠ none then
      .error (.toolError s!"coordinate is not accepted for action={action}.")
    else if action = "left_mouse_down" then .ok [.mouseDown "left", .screenshot]
    else .ok [.mouseUp "left", .screenshot]
  else if action = "scroll" then
    let sd := match scroll_direction with | none => "None" | some d => d
    if scroll_direction = none ∨ ¬ (sd ∈ scrollDirections) then
      .error (.toolError
        ("scroll_direction=" ++ sd ++ " must be up, down, left, or right"))
    else
      match scroll_amount with
      | some (.int amt) =>
        if amt < 0 then
          .error (.toolError
            ("scroll_amount=" ++ toString amt ++ " must be a non-negative int"))
        else
          match validate_coordinates coordinate with
          | .error e => .error e
          | .ok vc =>
            let pre := match vc with
              | some (x, y) => [PageEffect.mouseMove x y]
              | none => []
            let scroll_factor : Rat := (amt : Rat) / 25
            let dx : Rat := if sd = "left" then -(scroll_factor * (pageW : Rat))
              else if sd = "right" then scroll_factor * (pageW : Rat) else 0
            let dy : Rat := if sd = "up" then -(scroll_factor * (pageH : Rat))
              else if sd = "down" then scroll_factor * (pageH : Rat) else 0
            .ok (pre ++ [.evalDimensions, .wheel dx dy, .screenshot])
      | other =>
        .error (.toolError
          ("scroll_amount=" ++ reprOptNum other ++ " must be a non-negative int"))
  else if action = "hold_key" ∨ action = "wait" then
    match duration with
    | none =>
      .error (.toolError "duration=None must be a number")
    | some d =>
      let dq := numToRat d
      if dq < 0 then
        .error (.toolError ("duration=" ++ reprNum d ++ " must be non-negative"))
      else if dq > 100 then
        .error (.toolError ("duration=" ++ reprNum d ++ " is too long."))
      else if action = "hold_key" then
        match text with
        | none => .error (.toolError "text is required for hold_key")
        | some t =>
          .ok [.keyDown (map_key t), .sleep dq, .keyUp (map_key t), .screenshot]
      else .ok [.sleep dq, .screenshot]
  else if action = "left_click" ∨ action = "right_click" ∨
      action = "double_click" ∨ action = "triple_click" ∨
      action = "middle_click" then
    if text ≠ none then
      .error (.toolError s!"text is not accepted for {action}")
    else
      match validate_coordinates coordinate with
      | .error e => .error e
      | .ok vc =>
        let pre := match vc with
          | some (x, y) => [PageEffect.mouseMove x y]
          | none => []
        let keyFx : List PageEffect × List PageEffect :=
          match key with
          | some k => if k ≠ "" then
              ([.keyDown (map_key k)], [.keyUp (map_key k)]) else ([], [])
          | none => ([], [])
        match vc with
        | none => .error .unboundLocal
        | some (x, y) =>
          let clickFx : List PageEffect :=
            if action = "triple_click" then [.clickCount x y 3]
            else if action = "double_click" then [.dblclick x y]
            else [.click x y ((mouseButtons.lookup action).getD "")]
          .ok (pre ++ keyFx.fst ++ clickFx ++ keyFx.snd ++ [.screenshot])
  else baseCall action text coordinate

/-- tool_use ids of an assistant turn, in block order. -/
def toolUseIds : List ContentBlock → List String
  | [] => []
  | ⟨.toolUse id _ _, _⟩ :: rest => id :: toolUseIds rest
  | _ :: rest => toolUseIds rest

/-- tool_use_ids carried by the tool_result blocks, in block order. -/
def toolResultIds : List ContentBlock → List String
  | [] => []
  | ⟨.toolResult id _ _, _⟩ :: rest => id :: toolResultIds rest
  | _ :: rest => toolResultIds rest

def isToolResultBlock (b : ContentBlock) : Bool :=
  match b.body with | .toolResult _ _ _ => true | _ => false

/-- Erase every tool_result image from a content list (used to state that the
    image filter touches nothing but images). -/
def stripTRImages : List TRBlock → List TRBlock
  | [] => []
  | .image _ :: rest => stripTRImages rest
  | .text s :: rest => .text s :: stripTRImages rest

def stripBlock : ContentBlock → ContentBlock
  | ⟨.toolResult id (.blocks items) err, cc⟩ =>
    ⟨.toolResult id (.blocks (stripTRImages items)) err, cc⟩
  | b => b

def stripMsg : Message → Message
  | ⟨r, .str s⟩ => ⟨r, .str s⟩
  | ⟨r, .blocks items⟩ => ⟨r, .blocks (items.map stripBlock)⟩

def stripImages (messages : List Message) : List Message :=
  messages.map stripMsg

/-- Number of user turns with list content in a history fragment. -/
def ulCount (l : List Message) : Nat := (l.filter isUserList).length

/-- Does the last block of a list-content message carry a cache marker? -/
def lastBlockMarked (m : Message) : Bool :=
  match m.content with
  | .str _ => false
  | .blocks items =>
    match items.getLast? with
    | some b => b.cache_control == some .ephemeral
    | none => false

/- Concrete fixtures used by counterexamples and witnesses. -/

/-- A tool whose behaviour always succeeds with empty output. -/
def stubTool : Tool := fun _ => .ok {}

/-- A collection registering exactly the names the loop registers:
    the computer tool and the playwright tool. -/
def tcFix : ToolCollection :=
  ⟨[("computer", stubTool), ("playwright", stubTool)]⟩

/-- Model response asking for the unregistered tool "foo". -/
def respFoo : ModelResponse :=
  ⟨"tool_use", [⟨.toolUse "toolu_01" "foo" { action := some "screenshot" }, none⟩]⟩

/-- A tool whose behaviour succeeds with a text output. -/
def okTool : Tool := fun _ => .ok { output := some "done" }

def tcRun : ToolCollection := ⟨[("computer", okTool)]⟩

/-- Model response with one text block and one computer tool_use. -/
def respRun : ModelResponse :=
  ⟨"tool_use",
   [⟨.text "Taking a screenshot", none⟩,
    ⟨.toolUse "toolu_02" "computer" { action := some "screenshot" }, none⟩]⟩

/-- A history holding exactly 10 tool_result screenshot images (scenario D). -/
def exD : List Message :=
  [⟨.user, .blocks [⟨.toolResult "a"
      (.blocks [.image "i1", .image "i2", .image "i3", .text "ta"]) false, none⟩]⟩,
   ⟨.assistant, .blocks [⟨.text "looking", none⟩]⟩,
   ⟨.user, .blocks [⟨.toolResult "b"
      (.blocks [.image "i4", .image "i5", .image "i6", .image "i7",
                .image "i8", .image "i9", .image "i10", .text "tb"]) false, none⟩]⟩]

/-- Five user turns with list content; the oldest one already carries a
    cache marker from an earlier source. -/
def c3ex : List Message :=
  [⟨.user, .blocks [⟨.text "m0", some .ephemeral⟩]⟩,
   ⟨.user, .blocks [⟨.text "m1", none⟩]⟩,
   ⟨.user, .blocks [⟨.text "m2", none⟩]⟩,
   ⟨.user, .blocks [⟨.text "m3", none⟩]⟩,
   ⟨.user, .blocks [⟨.text "m4", none⟩]⟩]

/-- Did the call raise a ToolError (of any message)? -/
def raisesToolError {α : Type} : Except PyErr α → Bool
  | .error (.toolError _) => true
  | _ => false

/- Helper lemmas (shared; not tied to any single claim). -/

theorem blockImages_setCC : ∀ (cc : Option CacheControl) (b : ContentBlock),
    blockImages (setCC cc b) = blockImages b
  | _, ⟨.text _, _⟩ => rfl
  | _, ⟨.image _, _⟩ => rfl
  | _, ⟨.toolUse _ _ _, _⟩ => rfl
  | _, ⟨.toolResult _ (.str _) _, _⟩ => rfl
  | _, ⟨.toolResult _ (.blocks _) _, _⟩ => rfl
  | _, ⟨.thinking _ _, _⟩ => rfl

theorem blocksImages_modifyLast (cc : Option CacheControl) :
    ∀ l : List ContentBlock,
      blocksImages (modifyLast (setCC cc) l) = blocksImages l
  | [] => rfl
  | [a] => by
    show blocksImages [setCC cc a] = blocksImages [a]
    simp [blocksImages, blockImages_setCC]
  | a :: b :: rest => by
    show blockImages a ++ blocksImages (modifyLast (setCC cc) (b :: rest)) =
      blockImages a ++ blocksImages (b :: rest)
    rw [blocksImages_modifyLast cc (b :: rest)]

theorem msgImages_markLast (m : Message) :
    msgImages (markLast m) = msgImages m := by
  cases m with
  | mk r c =>
    cases c with
    | str s => rfl
    | blocks items => exact blocksImages_modifyLast _ items

theorem msgImages_clearLast (m : Message) :
    msgImages (clearLast m) = msgImages m := by
  cases m with
  | mk r c =>
    cases c with
    | str s => rfl
    | blocks items => exact blocksImages_modifyLast _ items

theorem map_msgImages_injectRev : ∀ (bp : Nat) (l : List Message),
    (injectRev bp l).map msgImages = l.map msgImages
  | _, [] => rfl
  | bp, m :: rest => by
    cases hb : isUserList m with
    | true =>
      cases bp with
      | zero => simp [injectRev, hb, msgImages_clearLast]
      | succ bp1 =>
        simp [injectRev, hb, msgImages_markLast, map_msgImages_injectRev bp1 rest]
    | false => simp [injectRev, hb, map_msgImages_injectRev bp rest]

theorem imageSeq_eq_flatten : ∀ l : List Message,
    imageSeq l = (l.map msgImages).flatten
  | [] => rfl
  | m :: rest => by simp [imageSeq, imageSeq_eq_flatten rest]

theorem imageSeq_inject (messages : List Message) :
    imageSeq (inject_prompt_caching messages) = imageSeq messages := by
  rw [imageSeq_eq_flatten, imageSeq_eq_flatten, inject_prompt_caching]
  rw [List.map_reverse, map_msgImages_injectRev, ← List.map_reverse,
    List.reverse_reverse]

theorem preRequest_eq (messages : List Message) (k : Option Int) :
    preRequestHistory messages k = some (inject_prompt_caching messages, some 0) :=
  rfl

/- Claim C2. -/

/-- C2, counterexample: with a caller-supplied limit of 4 and a history of 10
    tool_result images, the pre-request phase leaves all 10 images in place,
    while actually applying the image-retention pruning parameterized by the
    caller limit (images_to_keep = 4, min_removal_threshold = caller limit 4)
    would leave 6 — so the pruning policy is NOT applied before the model
    request, contradicting the claim. -/
theorem c2_pruning_not_applied_counterexample :
    (preRequestHistory exD (some 4)).map (fun p => imageCount p.1) = some 10 ∧
    (maybe_filter_images (inject_prompt_caching exD) 4 4).map imageCount = some 6 := by
  constructor <;> rfl

/-- C2, amended: on every iteration, before the model request is issued, the
    cache-control injection is applied to the live history, but the
    image-retention pruning is never applied, whatever limit the caller
    supplied, because the loop overwrites only_n_most_recent_images with 0
    before the pruning guard. -/
theorem c2_amended_only_injection_applied (messages : List Message)
    (k : Option Int) :
    (preRequestHistory messages k).map Prod.fst =
      some (inject_prompt_caching messages) := by
  rw [preRequest_eq]; rfl

/- Claim C10. -/

/-- C10: every iteration's pre-request phase unconditionally enables prompt
    caching and overwrites only_n_most_recent_images with 0 before the pruning
    guard runs, so regardless of the caller's image-retention limit the loop
    never removes any image block from the message history. -/
theorem c10_loop_never_prunes_images (messages : List Message) (k : Option Int) :
    (preRequestHistory messages k).map Prod.snd = some (some 0) ∧
    (preRequestHistory messages k).map (fun p => imageSeq p.1) =
      some (imageSeq messages) := by
  rw [preRequest_eq]
  exact ⟨rfl, by simp [imageSeq_inject]⟩

/- Claim C1. -/

/-- C1, counterexample: a tool_use naming the unregistered tool "foo" makes
    dispatch raise ValueError("Tool foo not found"); no ToolResult with
    is_error = true is produced, nothing is appended to the history, and the
    exception propagates out of the loop iteration instead of the loop
    continuing. -/
theorem c1_unknown_tool_raises_counterexample :
    toolCollectionRun tcFix "foo" { action := some "screenshot" } =
      .error (.valueError "Tool foo not found") ∧
    postResponse tcFix [] respFoo = .error (.valueError "Tool foo not found") := by
  constructor <;> rfl

/-- C1, amended: a tool_use naming an unregistered tool, or omitting the
    "action" discriminator, or carrying an unrecognized action value, makes
    ToolCollection.run raise a ValueError naming the offending tool; the
    sampling loop has no handler, so the exception propagates out of the
    iteration and no ToolResult is appended to the history. -/
theorem c1_amended_dispatch_raises :
    (∀ (tc : ToolCollection) (name : String) (input : ToolInput),
      toolGet tc name = none →
      toolCollectionRun tc name input =
        .error (.valueError s!"Tool {name} not found")) ∧
    (∀ (tc : ToolCollection) (name : String) (input : ToolInput) (t : Tool),
      toolGet tc name = some t → input.action = none →
      toolCollectionRun tc name input =
        .error (.valueError s!"Invalid action None for tool {name}")) ∧
    (∀ (tc : ToolCollection) (name : String) (input : ToolInput) (t : Tool)
      (a : String),
      toolGet tc name = some t → input.action = some a → a ∉ actionValues →
      toolCollectionRun tc name input =
        .error (.valueError s!"Invalid action {a} for tool {name}")) ∧
    (∀ (tc : ToolCollection) (messages : List Message) (resp : ModelResponse)
      (e : PyErr),
      resp.stop_reason ≠ "end_turn" →
      runToolUses tc resp.content = .error e →
      postResponse tc messages resp = .error e) := by
  refine ⟨?_, ?_, ?_, ?_⟩
  · intro tc name input h
    simp [toolCollectionRun, h]
  · intro tc name input t ht ha
    simp [toolCollectionRun, ht, ha]
  · intro tc name input t a ht ha hmem
    simp [toolCollectionRun, ht, ha, hmem]
  · intro tc messages resp e hs hr
    simp [postResponse, hs, hr]

/-- Witness for c1_amended_dispatch_raises at concrete inputs. -/
theorem c1_amended_dispatch_raises_witness :
    toolCollectionRun tcFix "foo" { action := some "screenshot" } =
      .error (.valueError "Tool foo not found") ∧
    toolCollectionRun tcFix "computer" {} =
      .error (.valueError "Invalid action None for tool computer") ∧
    toolCollectionRun tcFix "computer" { action := some "fly" } =
      .error (.valueError "Invalid action fly for tool computer") ∧
    postResponse tcFix [] respFoo = .error (.valueError "Tool foo not found") := by
  refine ⟨?_, ?_, ?_, ?_⟩
  · exact c1_amended_dispatch_raises.1 tcFix "foo" _ rfl
  · exact c1_amended_dispatch_raises.2.1 tcFix "computer" {} stubTool rfl rfl
  · exact c1_amended_dispatch_raises.2.2.1 tcFix "computer" _ stubTool "fly"
      rfl rfl (by decide)
  · exact c1_amended_dispatch_raises.2.2.2 tcFix [] respFoo _ (by decide) rfl

/- Claim C9. -/

/-- C9, counterexample: the unknown multi-character key "foobar" is returned
    unchanged by both normalizers, not title-cased to "Foobar"; and "pgdn" is
    not in the lookup tables, so it passes through instead of mapping to a
    canonical identifier. -/
theorem c9_no_titlecase_counterexample :
    get_playwright_key "foobar" = .ok "foobar" ∧
    ("foobar" : String) ≠ "Foobar" ∧
    get_playwright_key "pgdn" = .ok "pgdn" ∧
    map_key "pgdn" = "pgdn" := by
  refine ⟨rfl, by decide, rfl, rfl⟩

/-- C9, amended: a key name not present in the lookup tables is passed through
    to the automation backend unchanged whatever its length (no title-casing);
    known names such as ctrl and return map to their canonical Playwright
    identifiers, but pgdn is not a known name in these tables. -/
theorem c9_amended_key_passthrough :
    (∀ k : String, k ≠ "" →
      keyMapKeyboard.lookup (pyLower k) = none →
      modifierKeyMap.lookup (pyLower k) = none →
      get_playwright_key k = .ok k) ∧
    get_playwright_key "ctrl" = .ok "Control" ∧
    get_playwright_key "return" = .ok "Enter" ∧
    map_key "ctrl" = "Control" ∧
    map_key "return" = "Enter" ∧
    get_playwright_key "pgdn" = .ok "pgdn" := by
  refine ⟨?_, rfl, rfl, rfl, rfl, rfl⟩
  intro k hne h1 h2
  simp [get_playwright_key, hne, h1, h2]

/-- Witness for c9_amended_key_passthrough at the concrete key "volumeup". -/
theorem c9_amended_key_passthrough_witness :
    get_playwright_key "volumeup" = .ok "volumeup" :=
  c9_amended_key_passthrough.1 "volumeup" (by decide) rfl rfl

/- Claim C7. -/

/-- C7, counterexample: a coordinate pair containing a float is rejected by
    the operative validator (claim says floats are accepted), and a click
    action with a missing coordinate is not rejected with a ToolError — it
    reads the never-assigned locals x, y (Python UnboundLocalError). -/
theorem c7_floats_rejected_counterexample :
    raisesToolError
      (validate_coordinates (some (.tup [.float ((3 : Rat) / 2), .int 2]))) = true ∧
    call20250124 1280 720 "left_click" none none none none none none =
      .error .unboundLocal := by
  constructor <;> rfl

/-- C7, amended: mouse_move and left_click_drag reject a missing coordinate
    with a ToolError; every two-element tuple or list of non-negative ints is
    accepted and both forms normalize to the same pair; wrong arity, negative
    components, and float components are rejected by the operative validator
    (the unused ActionValidator would accept non-negative floats, which is
    where the claim's float wording comes from); click-family actions do not
    validate a missing coordinate at all and instead hit an UnboundLocalError
    during execution. -/
theorem c7_amended_coordinate_validation :
    (∀ action : String, action = "mouse_move" ∨ action = "left_click_drag" →
      baseCall action none none =
        .error (.toolError s!"coordinate is required for {action}")) ∧
    (∀ x y : Int, 0 ≤ x → 0 ≤ y →
      validate_coordinates (some (.tup [.int x, .int y])) = .ok (some (x, y)) ∧
      validate_coordinates (some (.lst [.int x, .int y])) =
        validate_coordinates (some (.tup [.int x, .int y]))) ∧
    (∀ xs : List PyNum, xs.length ≠ 2 →
      ∃ msg, validate_coordinates (some (.tup xs)) = .error (.toolError msg)) ∧
    (∀ x y : Int, x < 0 ∨ y < 0 →
      validate_coordinates (some (.tup [.int x, .int y])) =
        .error (.toolError (tupleStr [.int x, .int y] ++
          " must be a tuple or list of non-negative ints"))) ∧
    (∀ (q : Rat) (v : PyNum),
      ∃ msg, validate_coordinates (some (.tup [.float q, v])) =
        .error (.toolError msg)) ∧
    (∀ x y : Rat, 0 ≤ x → 0 ≤ y →
      validate_and_get_coordinates (.lst [.float x, .float y]) =
        .ok [.float x, .float y]) ∧
    call20250124 1280 720 "left_click" none none none none none none =
      .error .unboundLocal := by
  refine ⟨?_, ?_, ?_, ?_, ?_, ?_, rfl⟩
  · rintro action (rfl | rfl) <;> rfl
  · intro x y hx hy
    constructor
    · simp only [validate_coordinates]
      rw [if_neg]
      omega
    · rfl
  · intro xs h
    rcases xs with _ | ⟨a, _ | ⟨b, _ | ⟨c, rest⟩⟩⟩
    · exact ⟨_, rfl⟩
    · cases a <;> exact ⟨_, rfl⟩
    · simp at h
    · cases a <;> cases b <;> exact ⟨_, rfl⟩
  · intro x y h
    simp only [validate_coordinates]
    rw [if_pos h]
  · intro q v
    cases v <;> exact ⟨_, rfl⟩
  · intro x y hx hy
    simp [validate_and_get_coordinates, numNonneg, hx, hy]

/-- Witness for c7_amended_coordinate_validation at concrete inputs. -/
theorem c7_amended_coordinate_validation_witness :
    baseCall "mouse_move" none none =
      .error (.toolError "coordinate is required for mouse_move") ∧
    (validate_coordinates (some (.tup [.int 100, .int 50])) =
        .ok (some (100, 50)) ∧
      validate_coordinates (some (.lst [.int 100, .int 50])) =
        validate_coordinates (some (.tup [.int 100, .int 50]))) ∧
    (∃ msg, validate_coordinates (some (.tup [.int 1, .int 2, .int 3])) =
      .error (.toolError msg)) ∧
    validate_coordinates (some (.tup [.int (-5), .int 7])) =
      .error (.toolError (tupleStr [.int (-5), .int 7] ++
        " must be a tuple or list of non-negative ints")) ∧
    (∃ msg, validate_coordinates
        (some (.tup [.float ((1 : Rat) / 2), .int 3])) =
      .error (.toolError msg)) ∧
    validate_and_get_coordinates
        (.lst [.float ((1 : Rat) / 2), .float ((7 : Rat) / 4)]) =
      .ok [.float ((1 : Rat) / 2), .float ((7 : Rat) / 4)] := by
  refine ⟨?_, ?_, ?_, ?_, ?_, ?_⟩
  · exact c7_amended_coordinate_validation.1 "mouse_move" (Or.inl rfl)
  · exact c7_amended_coordinate_validation.2.1 100 50 (by decide) (by decide)
  · exact c7_amended_coordinate_validation.2.2.1 [.int 1, .int 2, .int 3]
      (by decide)
  · exact c7_amended_coordinate_validation.2.2.2.1 (-5) 7 (Or.inl (by decide))
  · exact c7_amended_coordinate_validation.2.2.2.2.1 ((1 : Rat) / 2) (.int 3)
  · exact c7_amended_coordinate_validation.2.2.2.2.2.1 ((1 : Rat) / 2)
      ((7 : Rat) / 4) (by norm_num) (by norm_num)

/- Claim C8. -/

/-- C8, counterexample: a scroll with the amount unspecified does not default
    to a fixed constant — it raises a ToolError. -/
theorem c8_no_default_amount_counterexample :
    call20250124 1280 720 "scroll" none none (some "down") none none none =
      .error (.toolError "scroll_amount=None must be a non-negative int") := rfl

/-- C8, amended: the scroll direction must be one of up, down, left, right
    (else ToolError); the direction is converted to a signed delta along one
    axis (down/right positive, up/left negative, scaled by scroll_amount/25 of
    the page dimension); an unspecified scroll amount raises a ToolError
    rather than defaulting, as do negative or non-int amounts; a supplied
    coordinate moves the pointer before the wheel event. -/
theorem c8_amended_scroll_semantics :
    (∀ (w h : Int) (c : Option CoordArg) (sa : Option PyNum) (du : Option PyNum) (k : Option String),
      call20250124 w h "scroll" none c none sa du k =
        .error (.toolError "scroll_direction=None must be up, down, left, or right")) ∧
    (∀ (w h : Int) (d : String) (c : Option CoordArg) (sa : Option PyNum)
      (du : Option PyNum) (k : Option String), d ∉ scrollDirections →
      call20250124 w h "scroll" none c (some d) sa du k =
        .error (.toolError
          ("scroll_direction=" ++ d ++ " must be up, down, left, or right"))) ∧
    (∀ (w h a : Int) (du : Option PyNum) (k : Option String), 0 ≤ a →
      call20250124 w h "scroll" none none (some "down") (some (.int a)) du k =
        .ok [.evalDimensions, .wheel 0 ((a : Rat) / 25 * (h : Rat)), .screenshot] ∧
      call20250124 w h "scroll" none none (some "up") (some (.int a)) du k =
        .ok [.evalDimensions, .wheel 0 (-((a : Rat) / 25 * (h : Rat))), .screenshot] ∧
      call20250124 w h "scroll" none none (some "right") (some (.int a)) du k =
        .ok [.evalDimensions, .wheel ((a : Rat) / 25 * (w : Rat)) 0, .screenshot] ∧
      call20250124 w h "scroll" none none (some "left") (some (.int a)) du k =
        .ok [.evalDimensions, .wheel (-((a : Rat) / 25 * (w : Rat))) 0, .screenshot]) ∧
    (∀ (w h : Int) (d : String) (c : Option CoordArg) (du : Option PyNum) (k : Option String),
      d ∈ scrollDirections →
      call20250124 w h "scroll" none c (some d) none du k =
        .error (.toolError "scroll_amount=None must be a non-negative int")) ∧
    (∀ (w h a : Int) (d : String) (c : Option CoordArg) (du : Option PyNum) (k : Option String),
      d ∈ scrollDirections → a < 0 →
      call20250124 w h "scroll" none c (some d) (some (.int a)) du k =
        .error (.toolError
          ("scroll_amount=" ++ toString a ++ " must be a non-negative int"))) ∧
    (∀ (w h : Int) (q : Rat) (d : String) (c : Option CoordArg) (du : Option PyNum) (k : Option String),
      d ∈ scrollDirections →
      raisesToolError
        (call20250124 w h "scroll" none c (some d) (some (.float q)) du k) = true) ∧
    (∀ (w h a x y : Int) (du : Option PyNum) (k : Option String), 0 ≤ a → 0 ≤ x → 0 ≤ y →
      call20250124 w h "scroll" none (some (.tup [.int x, .int y])) (some "down")
          (some (.int a)) du k =
        .ok [.mouseMove x y, .evalDimensions,
             .wheel 0 ((a : Rat) / 25 * (h : Rat)), .screenshot]) := by
  refine ⟨?_, ?_, ?_, ?_, ?_, ?_, ?_⟩
  · intro w h c sa du k
    simp [call20250124]
  · intro w h d c sa du k hd
    simp [call20250124, hd]
  · intro w h a du k ha
    have hna : ¬ (a < 0) := by omega
    refine ⟨?_, ?_, ?_, ?_⟩ <;> simp [call20250124, scrollDirections, hna, validate_coordinates]
  · intro w h d c du k hd
    simp [call20250124, hd, reprOptNum]
  · intro w h a d c du k hd ha
    simp [call20250124, hd, ha]
  · intro w h q d c du k hd
    simp [call20250124, hd, raisesToolError]
  · intro w h a x y du k ha hx hy
    have hna : ¬ (a < 0) := by omega
    have hv : validate_coordinates (some (.tup [.int x, .int y])) = .ok (some (x, y)) := by
      simp only [validate_coordinates]
      rw [if_neg]
      omega
    simp [call20250124, scrollDirections, hna, hv]

/-- Witness for c8_amended_scroll_semantics at concrete inputs. -/
theorem c8_amended_scroll_semantics_witness :
    call20250124 1280 720 "scroll" none none none none none none =
      .error (.toolError "scroll_direction=None must be up, down, left, or right") ∧
    call20250124 1280 720 "scroll" none none (some "diagonal") none none none =
      .error (.toolError
        "scroll_direction=diagonal must be up, down, left, or right") ∧
    call20250124 1280 720 "scroll" none none (some "down")
        (some (.int 10)) none none =
      .ok [.evalDimensions,
           .wheel 0 (((10 : Int) : Rat) / 25 * ((720 : Int) : Rat)), .screenshot] ∧
    call20250124 1280 720 "scroll" none none (some "up") (some (.int (-3))) none none =
      .error (.toolError
        ("scroll_amount=" ++ toString (-3 : Int) ++ " must be a non-negative int")) ∧
    raisesToolError (call20250124 1280 720 "scroll" none none (some "up")
        (some (.float ((1 : Rat) / 2))) none none) = true ∧
    call20250124 1280 720 "scroll" none (some (.tup [.int 100, .int 50]))
        (some "down") (some (.int 10)) none none =
      .ok [.mouseMove 100 50, .evalDimensions,
           .wheel 0 (((10 : Int) : Rat) / 25 * ((720 : Int) : Rat)), .screenshot] := by
  refine ⟨?_, ?_, ?_, ?_, ?_, ?_⟩
  · exact c8_amended_scroll_semantics.1 1280 720 none none none none
  · exact c8_amended_scroll_semantics.2.1 1280 720 "diagonal" none none none none
      (by decide)
  · exact (c8_amended_scroll_semantics.2.2.1 1280 720 10 none none (by decide)).1
  · exact c8_amended_scroll_semantics.2.2.2.2.1 1280 720 (-3) "up" none none none
      (by decide) (by decide)
  · exact c8_amended_scroll_semantics.2.2.2.2.2.1 1280 720 ((1 : Rat) / 2) "up"
      none none none (by decide)
  · exact c8_amended_scroll_semantics.2.2.2.2.2.2 1280 720 10 100 50 none none
      (by decide) (by decide) (by decide)

/- Claim C6. -/

theorem make_api_tool_result_shape (r : ToolResult) (id : String) :
    ∃ c e, make_api_tool_result r id = ⟨.toolResult id c e, none⟩ := by
  unfold make_api_tool_result
  split <;> exact ⟨_, _, rfl⟩

theorem runToolUses_ok (tc : ToolCollection) :
    ∀ (blocks trc : List ContentBlock), runToolUses tc blocks = .ok trc →
      toolResultIds trc = toolUseIds blocks ∧
      ∀ b ∈ trc, isToolResultBlock b = true
  | [], trc, h => by
    simp only [runToolUses] at h
    cases h
    exact ⟨rfl, by simp⟩
  | ⟨.toolUse id name input, cc⟩ :: rest, trc, h => by
    simp only [runToolUses] at h
    cases hr : toolCollectionRun tc name input with
    | error e =>
      rw [hr] at h
      exact Except.noConfusion h
    | ok r =>
      rw [hr] at h
      cases hrest : runToolUses tc rest with
      | error e =>
        rw [hrest] at h
        exact Except.noConfusion h
      | ok rest' =>
        rw [hrest] at h
        have h2 : Except.ok (ε := PyErr)
            (make_api_tool_result r id :: rest') = .ok trc := h
        cases h2
        obtain ⟨ih1, ih2⟩ := runToolUses_ok tc rest rest' hrest
        obtain ⟨c, e, hmake⟩ := make_api_tool_result_shape r id
        constructor
        · rw [hmake]
          simp only [toolResultIds, toolUseIds, ih1]
        · intro b hb
          rcases List.mem_cons.mp hb with hb | hb
          · rw [hb, hmake]; rfl
          · exact ih2 b hb
  | ⟨.text t, cc⟩ :: rest, trc, h => runToolUses_ok tc rest trc h
  | ⟨.image d, cc⟩ :: rest, trc, h => runToolUses_ok tc rest trc h
  | ⟨.toolResult i c e, cc⟩ :: rest, trc, h => runToolUses_ok tc rest trc h
  | ⟨.thinking t s, cc⟩ :: rest, trc, h => runToolUses_ok tc rest trc h

/-- C6: whenever an iteration completes without an exception, either it
    terminated and appended only the assistant turn (no tool_result produced),
    or it appended the assistant turn immediately followed by one user turn
    whose blocks are all tool_results, exactly one per tool_use of the
    assistant turn, carrying the matching tool_use_ids in the same order
    (dispatch is sequential); an end_turn stop reason always takes the first
    branch. -/
theorem c6_tool_results_match (tc : ToolCollection) (messages : List Message)
    (resp : ModelResponse) (out : StepOutcome)
    (h : postResponse tc messages resp = .ok out) :
    (∃ trc, out = .next (messages ++
        [⟨.assistant, .blocks resp.content⟩, ⟨.user, .blocks trc⟩]) ∧
      trc ≠ [] ∧
      toolResultIds trc = toolUseIds resp.content ∧
      (∀ b ∈ trc, isToolResultBlock b = true)) ∨
    (out = .terminated (messages ++ [⟨.assistant, .blocks resp.content⟩]) ∧
      (resp.stop_reason = "end_turn" ∨ toolUseIds resp.content = [])) := by
  by_cases hs : resp.stop_reason == "end_turn"
  · right
    simp only [postResponse, hs, if_pos] at h
    cases h
    exact ⟨rfl, Or.inl (by simpa using hs)⟩
  · simp only [postResponse, hs, if_neg, Bool.false_eq_true, if_false] at h
    cases hrt : runToolUses tc resp.content with
    | error e =>
      rw [hrt] at h
      exact Except.noConfusion h
    | ok trc =>
      rw [hrt] at h
      obtain ⟨hids, hall⟩ := runToolUses_ok tc resp.content trc hrt
      have hif : (if trc.isEmpty = true then
            Except.ok (ε := PyErr) (StepOutcome.terminated
              (messages ++ [⟨.assistant, .blocks resp.content⟩]))
          else Except.ok (StepOutcome.next
            (messages ++ [⟨.assistant, .blocks resp.content⟩] ++
              [⟨.user, .blocks trc⟩]))) = Except.ok out := h
      by_cases he : trc.isEmpty
      · rw [if_pos he] at hif
        cases hif
        right
        refine ⟨rfl, Or.inr ?_⟩
        rw [← hids, List.isEmpty_iff.mp he]
        rfl
      · rw [if_neg he] at hif
        cases hif
        left
        refine ⟨trc, by simp, ?_, hids, hall⟩
        intro hnil
        exact he (by simp [hnil])

/-- Witness for c6_tool_results_match: a concrete response with one tool_use
    dispatched through a registered computer tool. -/
theorem c6_tool_results_match_witness :
    (∃ trc,
      StepOutcome.next
          [⟨.assistant, .blocks respRun.content⟩,
           ⟨.user, .blocks [⟨.toolResult "toolu_02" (.blocks [.text "done"])
             false, none⟩]⟩] =
        .next ([] ++ [⟨.assistant, .blocks respRun.content⟩,
          ⟨.user, .blocks trc⟩]) ∧
      trc ≠ [] ∧
      toolResultIds trc = toolUseIds respRun.content ∧
      (∀ b ∈ trc, isToolResultBlock b = true)) ∨
    (StepOutcome.next
        [⟨.assistant, .blocks respRun.content⟩,
         ⟨.user, .blocks [⟨.toolResult "toolu_02" (.blocks [.text "done"])
           false, none⟩]⟩] =
      .terminated ([] ++ [⟨.assistant, .blocks respRun.content⟩]) ∧
      (respRun.stop_reason = "end_turn" ∨ toolUseIds respRun.content = [])) :=
  c6_tool_results_match tcRun [] respRun _ rfl

/- Claim C3. -/

/-- C3, counterexample: five user turns, the oldest already carrying a cache
    marker.  After one injection the 3 most recent turns are marked and the
    4th most recent is cleared, but the walk breaks there: the stale marker on
    the oldest turn survives, although the claim says every user turn older
    than the 3 most recent carries no marker. -/
theorem c3_stale_marker_survives_counterexample :
    inject_prompt_caching c3ex =
      [⟨.user, .blocks [⟨.text "m0", some .ephemeral⟩]⟩,
       ⟨.user, .blocks [⟨.text "m1", none⟩]⟩,
       ⟨.user, .blocks [⟨.text "m2", some .ephemeral⟩]⟩,
       ⟨.user, .blocks [⟨.text "m3", some .ephemeral⟩]⟩,
       ⟨.user, .blocks [⟨.text "m4", some .ephemeral⟩]⟩] ∧
    ulCount c3ex = 5 ∧
    lastBlockMarked (c3ex.headD ⟨.user, .str ""⟩) = true ∧
    lastBlockMarked ((inject_prompt_caching c3ex).headD ⟨.user, .str ""⟩) = true := by
  refine ⟨rfl, rfl, rfl, rfl⟩

theorem injectRev_getElem? : ∀ (bp : Nat) (l : List Message) (i : Nat),
    (injectRev bp l)[i]? = (l[i]?).map (fun m =>
      if isUserList m then
        if ulCount (l.take i) < bp then markLast m
        else if ulCount (l.take i) = bp then clearLast m
        else m
      else m)
  | bp, [], i => by simp [injectRev]
  | bp, m :: rest, 0 => by
    cases hb : isUserList m with
    | true =>
      cases bp with
      | zero => simp [injectRev, hb, ulCount]
      | succ b => simp [injectRev, hb, ulCount]
    | false => simp [injectRev, hb]
  | bp, m :: rest, (i+1) => by
    cases hb : isUserList m with
    | true =>
      cases bp with
      | zero =>
        simp only [injectRev, hb, if_true, List.getElem?_cons_succ,
          List.take_succ_cons]
        simp [ulCount, List.filter_cons, hb]
      | succ b =>
        simp only [injectRev, hb, if_true, List.getElem?_cons_succ,
          List.take_succ_cons]
        rw [injectRev_getElem? b rest i]
        rcases rest[i]? with _ | m'
        · rfl
        · simp only [Option.map_some']
          by_cases hu : isUserList m'
          · simp only [hu, if_true, ulCount, List.filter_cons, hb,
              List.length_cons]
            split_ifs <;> first | rfl | omega
          · simp [hu]
    | false =>
      simp only [injectRev, hb, Bool.false_eq_true, if_false,
        List.getElem?_cons_succ, List.take_succ_cons]
      rw [injectRev_getElem? bp rest i]
      simp [ulCount, List.filter_cons, hb]

/-- C3, amended: after one application of the cache-control injection, in
    newest-to-oldest order the user turns with list content behave as
    follows — the 3 most recent ones get the ephemeral marker on their last
    content block, the 4th most recent has its marker removed, and every user
    turn older than the 4th is left exactly as it was, so a pre-existing
    marker there survives; non-user turns and string-content turns are never
    touched. -/
theorem c3_amended_cache_marking (messages : List Message) (i : Nat) :
    ((inject_prompt_caching messages).reverse)[i]? =
      ((messages.reverse)[i]?).map (fun m =>
        if isUserList m then
          if ulCount (messages.reverse.take i) < 3 then markLast m
          else if ulCount (messages.reverse.take i) = 3 then clearLast m
          else m
        else m) := by
  rw [inject_prompt_caching, List.reverse_reverse]
  exact injectRev_getElem? 3 messages.reverse i

/- Claims C4 and C5: arithmetic facts about Python's floor modulo. -/

theorem fmod_neg_bounds (a : Int) {c : Int} (hc : c < 0) :
    c < Int.fmod a c ∧ Int.fmod a c ≤ 0 := by
  obtain ⟨n, rfl⟩ : ∃ n : Nat, c = Int.negSucc n := by
    cases c with
    | ofNat k => exact absurd hc (by rw [Int.ofNat_eq_coe]; omega)
    | negSucc k => exact ⟨k, rfl⟩
  cases a with
  | ofNat m =>
    cases m with
    | zero =>
      show Int.negSucc n < Int.fmod 0 (Int.negSucc n) ∧
        Int.fmod 0 (Int.negSucc n) ≤ 0
      rw [Int.zero_fmod]
      simp only [Int.negSucc_eq]
      omega
    | succ m =>
      show Int.negSucc n < Int.subNatNat (m % (n + 1)) n ∧
        Int.subNatNat (m % (n + 1)) n ≤ 0
      rw [Int.subNatNat_eq_coe]
      have h1 : m % (n + 1) < n + 1 := Nat.mod_lt m (by omega)
      simp only [Int.negSucc_eq]
      omega
  | negSucc m =>
    show Int.negSucc n < -(Int.ofNat ((m + 1) % (n + 1))) ∧
      -(Int.ofNat ((m + 1) % (n + 1))) ≤ 0
    have h1 : (m + 1) % (n + 1) < n + 1 := Nat.mod_lt (m + 1) (by omega)
    simp only [Int.negSucc_eq, Int.ofNat_eq_coe]
    omega

theorem fmod_self_of_neg_range {s c : Int} (hc : c < 0) (h1 : c < s)
    (h2 : s ≤ 0) : Int.fmod s c = s := by
  obtain ⟨n, rfl⟩ : ∃ n : Nat, c = Int.negSucc n := by
    cases c with
    | ofNat k => exact absurd hc (by rw [Int.ofNat_eq_coe]; omega)
    | negSucc k => exact ⟨k, rfl⟩
  cases s with
  | ofNat m =>
    have hm : m = 0 := by
      rw [Int.ofNat_eq_coe] at h2
      omega
    subst hm
    exact Int.zero_fmod _
  | negSucc m =>
    show -(Int.ofNat ((m + 1) % (n + 1))) = Int.negSucc m
    have hmn : m < n := by
      simp only [Int.negSucc_eq] at h1
      omega
    rw [Nat.mod_eq_of_lt (by omega)]
    simp only [Int.negSucc_eq, Int.ofNat_eq_coe]
    omega

theorem fmod_fmod_self (a : Int) {c : Int} (hc : c ≠ 0) :
    Int.fmod (Int.fmod a c) c = Int.fmod a c := by
  rcases lt_or_gt_of_ne hc with h | h
  · obtain ⟨h1, h2⟩ := fmod_neg_bounds a h
    exact fmod_self_of_neg_range h h1 h2
  · exact Int.fmod_eq_of_lt (Int.fmod_nonneg' a h) (Int.fmod_lt_of_pos a h)

theorem fmod_le_self {a c : Int} (ha : 0 ≤ a) (hc : 0 < c) :
    Int.fmod a c ≤ a := by
  rw [Int.fmod_eq_emod a (le_of_lt hc)]
  have h1 : 0 ≤ a / c := Int.ediv_nonneg ha (le_of_lt hc)
  have h2 := Int.ediv_add_emod a c
  have h3 : 0 ≤ c * (a / c) := mul_nonneg (le_of_lt hc) h1
  omega

/- The removal pass threaded through one tool_result content list. -/

theorem dropTR_nonpos : ∀ (n : Int) (l : List TRBlock), n ≤ 0 →
    dropTR n l = (n, l)
  | n, [], h => rfl
  | n, .image d :: rest, h => by
    simp only [dropTR, if_neg (by omega : ¬ (0 : Int) < n)]
    rw [dropTR_nonpos n rest h]
  | n, .text s :: rest, h => by
    simp only [dropTR]
    rw [dropTR_nonpos n rest h]

theorem dropTR_noImages : ∀ (n : Int) (l : List TRBlock), trImages l = [] →
    dropTR n l = (n, l)
  | n, [], h => rfl
  | n, .image d :: rest, h => by simp [trImages] at h
  | n, .text s :: rest, h => by
    simp only [dropTR]
    rw [dropTR_noImages n rest (by simpa [trImages] using h)]

theorem dropTR_images : ∀ (n : Int) (l : List TRBlock),
    trImages (dropTR n l).2 = (trImages l).drop n.toNat
  | n, [] => by simp [dropTR, trImages]
  | n, .image d :: rest => by
    by_cases h : (0 : Int) < n
    · simp only [dropTR, if_pos h]
      rw [dropTR_images (n - 1) rest]
      have he : n.toNat = (n - 1).toNat + 1 := by omega
      rw [trImages, he, List.drop_succ_cons]
    · rw [dropTR_nonpos n _ (by omega)]
      have he : n.toNat = 0 := by omega
      rw [he, List.drop_zero]
  | n, .text s :: rest => by
    simp only [dropTR]
    have := dropTR_images n rest
    cases hd : dropTR n rest with
    | mk n' r =>
      rw [hd] at this
      simpa [trImages] using this

theorem dropTR_counter : ∀ (n : Int) (l : List TRBlock),
    (dropTR n l).1 = n - ((min n.toNat (trImages l).length : Nat) : Int)
  | n, [] => by simp [dropTR, trImages]
  | n, .image d :: rest => by
    by_cases h : (0 : Int) < n
    · simp only [dropTR, if_pos h]
      rw [dropTR_counter (n - 1) rest, trImages]
      simp only [List.length_cons]
      omega
    · rw [dropTR_nonpos n _ (by omega)]
      simp only [trImages]
      omega
  | n, .text s :: rest => by
    simp only [dropTR]
    have := dropTR_counter n rest
    cases hd : dropTR n rest with
    | mk n' r =>
      rw [hd] at this
      simpa [trImages] using this

theorem dropTR_strip : ∀ (n : Int) (l : List TRBlock),
    stripTRImages (dropTR n l).2 = stripTRImages l
  | n, [] => rfl
  | n, .image d :: rest => by
    by_cases h : (0 : Int) < n
    · simp only [dropTR, if_pos h, stripTRImages]
      exact dropTR_strip (n - 1) rest
    · simp only [dropTR, if_neg h]
      have := dropTR_strip n rest
      cases hd : dropTR n rest with
      | mk n' r =>
        rw [hd] at this
        simpa [stripTRImages] using this
  | n, .text s :: rest => by
    simp only [dropTR]
    have := dropTR_strip n rest
    cases hd : dropTR n rest with
    | mk n' r =>
      rw [hd] at this
      simpa [stripTRImages] using this

theorem dropBlock_spec : ∀ (n : Int) (b : ContentBlock),
    blockImages (dropBlock n b).2 = (blockImages b).drop n.toNat ∧
    (dropBlock n b).1 = n - ((min n.toNat (blockImages b).length : Nat) : Int) ∧
    stripBlock (dropBlock n b).2 = stripBlock b
  | n, ⟨.toolResult id (.blocks items) err, cc⟩ => by
    have h1 := dropTR_images n items
    have h2 := dropTR_counter n items
    have h3 := dropTR_strip n items
    cases hd : dropTR n items with
    | mk n' items' =>
      rw [hd] at h1 h2 h3
      simp only [dropBlock, hd]
      exact ⟨h1, h2, by simp only [stripBlock, h3]⟩
  | n, ⟨.text t, cc⟩ => by
    refine ⟨by simp [dropBlock, blockImages], ?_, rfl⟩
    simp [dropBlock, blockImages]
  | n, ⟨.image d, cc⟩ => by
    refine ⟨by simp [dropBlock, blockImages], ?_, rfl⟩
    simp [dropBlock, blockImages]
  | n, ⟨.toolUse i nm inp, cc⟩ => by
    refine ⟨by simp [dropBlock, blockImages], ?_, rfl⟩
    simp [dropBlock, blockImages]
  | n, ⟨.toolResult id (.str s) err, cc⟩ => by
    refine ⟨by simp [dropBlock, blockImages], ?_, rfl⟩
    simp [dropBlock, blockImages]
  | n, ⟨.thinking t sg, cc⟩ => by
    refine ⟨by simp [dropBlock, blockImages], ?_, rfl⟩
    simp [dropBlock, blockImages]

theorem dropBlocks_spec : ∀ (n : Int) (l : List ContentBlock),
    blocksImages (dropBlocks n l).2 = (blocksImages l).drop n.toNat ∧
    (dropBlocks n l).1 = n - ((min n.toNat (blocksImages l).length : Nat) : Int) ∧
    (dropBlocks n l).2.map stripBlock = l.map stripBlock
  | n, [] => by simp [dropBlocks, blocksImages]
  | n, b :: rest => by
    obtain ⟨i1, c1, s1⟩ := dropBlock_spec n b
    cases hd : dropBlock n b with
    | mk n1 b' =>
      rw [hd] at i1 c1 s1
      obtain ⟨i2, c2, s2⟩ := dropBlocks_spec n1 rest
      cases hr : dropBlocks n1 rest with
      | mk n2 rest' =>
        rw [hr] at i2 c2 s2
        simp only [dropBlocks, hd, hr]
        refine ⟨?_, ?_, ?_⟩
        · have hn : n1.toNat = n.toNat - (blockImages b).length := by omega
          simp only [blocksImages]
          rw [i1, i2, hn, List.drop_append_eq_append_drop]
        · simp only [blocksImages, List.length_append]
          omega
        · simp only [List.map_cons, s1, s2]

theorem dropMsg_spec : ∀ (n : Int) (m : Message),
    msgImages (dropMsg n m).2 = (msgImages m).drop n.toNat ∧
    (dropMsg n m).1 = n - ((min n.toNat (msgImages m).length : Nat) : Int) ∧
    stripMsg (dropMsg n m).2 = stripMsg m
  | n, ⟨r, .str s⟩ => by
    refine ⟨by simp [dropMsg, msgImages], ?_, rfl⟩
    simp [dropMsg, msgImages]
  | n, ⟨r, .blocks items⟩ => by
    obtain ⟨i1, c1, s1⟩ := dropBlocks_spec n items
    cases hd : dropBlocks n items with
    | mk n' items' =>
      rw [hd] at i1 c1 s1
      simp only [dropMsg, hd]
      exact ⟨i1, c1, by simp only [stripMsg, s1]⟩

theorem dropMsgs_spec : ∀ (n : Int) (l : List Message),
    imageSeq (dropMsgs n l).2 = (imageSeq l).drop n.toNat ∧
    (dropMsgs n l).1 = n - ((min n.toNat (imageSeq l).length : Nat) : Int) ∧
    stripImages (dropMsgs n l).2 = stripImages l
  | n, [] => by simp [dropMsgs, imageSeq, stripImages]
  | n, m :: rest => by
    obtain ⟨i1, c1, s1⟩ := dropMsg_spec n m
    cases hd : dropMsg n m with
    | mk n1 m' =>
      rw [hd] at i1 c1 s1
      obtain ⟨i2, c2, s2⟩ := dropMsgs_spec n1 rest
      cases hr : dropMsgs n1 rest with
      | mk n2 rest' =>
        rw [hr] at i2 c2 s2
        simp only [dropMsgs, hd, hr]
        refine ⟨?_, ?_, ?_⟩
        · have hn : n1.toNat = n.toNat - (msgImages m).length := by omega
          simp only [imageSeq]
          rw [i1, i2, hn, List.drop_append_eq_append_drop]
        · simp only [imageSeq, List.length_append]
          omega
        · simp only [stripImages, List.map_cons] at s1 s2 ⊢
          simp [s1, s2]

theorem dropBlock_nonpos : ∀ (n : Int) (b : ContentBlock), n ≤ 0 →
    dropBlock n b = (n, b)
  | n, ⟨.toolResult id (.blocks items) err, cc⟩, h => by
    simp only [dropBlock, dropTR_nonpos n items h]
  | n, ⟨.text t, cc⟩, h => rfl
  | n, ⟨.image d, cc⟩, h => rfl
  | n, ⟨.toolUse i nm inp, cc⟩, h => rfl
  | n, ⟨.toolResult id (.str s) err, cc⟩, h => rfl
  | n, ⟨.thinking t sg, cc⟩, h => rfl

theorem dropBlocks_nonpos : ∀ (n : Int) (l : List ContentBlock), n ≤ 0 →
    dropBlocks n l = (n, l)
  | n, [], h => rfl
  | n, b :: rest, h => by
    simp only [dropBlocks, dropBlock_nonpos n b h, dropBlocks_nonpos n rest h]

theorem dropMsg_nonpos : ∀ (n : Int) (m : Message), n ≤ 0 →
    dropMsg n m = (n, m)
  | n, ⟨r, .str s⟩, h => rfl
  | n, ⟨r, .blocks items⟩, h => by
    simp only [dropMsg, dropBlocks_nonpos n items h]

theorem dropMsgs_nonpos : ∀ (n : Int) (l : List Message), n ≤ 0 →
    dropMsgs n l = (n, l)
  | n, [], h => rfl
  | n, m :: rest, h => by
    simp only [dropMsgs, dropMsg_nonpos n m h, dropMsgs_nonpos n rest h]

theorem dropBlock_noImages : ∀ (n : Int) (b : ContentBlock),
    blockImages b = [] → dropBlock n b = (n, b)
  | n, ⟨.toolResult id (.blocks items) err, cc⟩, h => by
    simp only [dropBlock, dropTR_noImages n items h]
  | n, ⟨.text t, cc⟩, h => rfl
  | n, ⟨.image d, cc⟩, h => rfl
  | n, ⟨.toolUse i nm inp, cc⟩, h => rfl
  | n, ⟨.toolResult id (.str s) err, cc⟩, h => rfl
  | n, ⟨.thinking t sg, cc⟩, h => rfl

theorem dropBlocks_noImages : ∀ (n : Int) (l : List ContentBlock),
    blocksImages l = [] → dropBlocks n l = (n, l)
  | n, [], h => rfl
  | n, b :: rest, h => by
    have h1 : blockImages b = [] := by
      cases he : blockImages b with
      | nil => rfl
      | cons x xs => simp [blocksImages, he] at h
    have h2 : blocksImages rest = [] := by
      simp only [blocksImages, h1, List.nil_append] at h
      exact h
    simp only [dropBlocks, dropBlock_noImages n b h1,
      dropBlocks_noImages n rest h2]

theorem dropMsg_noImages : ∀ (n : Int) (m : Message),
    msgImages m = [] → dropMsg n m = (n, m)
  | n, ⟨r, .str s⟩, h => rfl
  | n, ⟨r, .blocks items⟩, h => by
    simp only [dropMsg, dropBlocks_noImages n items h]

theorem dropMsgs_noImages : ∀ (n : Int) (l : List Message),
    imageSeq l = [] → dropMsgs n l = (n, l)
  | n, [], h => rfl
  | n, m :: rest, h => by
    have h1 : msgImages m = [] := by
      cases he : msgImages m with
      | nil => rfl
      | cons x xs => simp [imageSeq, he] at h
    have h2 : imageSeq rest = [] := by
      simp only [imageSeq, h1, List.nil_append] at h
      exact h
    simp only [dropMsgs, dropMsg_noImages n m h1, dropMsgs_noImages n rest h2]

/-- C4: with 0 < C and 0 < K < T (T the total tool_result image count), the
    filter removes exactly floor((T-K)/C)*C images, the removed images are the
    oldest in history order (the remaining sequence is a suffix of the
    original), and nothing except images is touched (stripping all images
    yields the same history). -/
theorem c4_filter_removes_oldest (messages : List Message) (k c : Int)
    (hc : 0 < c) (hk : 0 < k) (hkt : k < (imageCount messages : Int)) :
    (maybe_filter_images messages k c).map imageSeq =
      some ((imageSeq messages).drop
        ((((imageCount messages : Int) - k).fdiv c * c).toNat)) ∧
    (maybe_filter_images messages k c).map stripImages =
      some (stripImages messages) ∧
    (maybe_filter_images messages k c).map imageCount =
      some (imageCount messages -
        ((((imageCount messages : Int) - k).fdiv c * c).toNat)) := by
  have hne : ¬ (c = 0) := by omega
  have hfd : ((imageCount messages : Int) - k) -
      Int.fmod ((imageCount messages : Int) - k) c =
      ((imageCount messages : Int) - k).fdiv c * c := by
    rw [Int.fmod_def]
    ring
  obtain ⟨i1, c1, s1⟩ := dropMsgs_spec
    (((imageCount messages : Int) - k) -
      Int.fmod ((imageCount messages : Int) - k) c) messages
  cases hd : dropMsgs (((imageCount messages : Int) - k) -
      Int.fmod ((imageCount messages : Int) - k) c) messages with
  | mk n1 l' =>
    rw [hd] at i1 c1 s1
    have hval : maybe_filter_images messages k c = some l' := by
      simp only [maybe_filter_images, if_neg hne]
      rw [hd]
    rw [hval]
    simp only [Option.map_some']
    refine ⟨?_, by rw [s1], ?_⟩
    · rw [i1, hfd]
    · rw [imageCount, i1, List.length_drop, hfd]
      rfl

/-- Witness for c4_filter_removes_oldest at scenario D: 10 images, limit 4,
    chunk 3 — exactly 6 removed, 4 left. -/
theorem c4_filter_removes_oldest_witness :
    (0 : Int) < 3 ∧ (0 : Int) < 4 ∧ (4 : Int) < (imageCount exD : Int) ∧
    ((maybe_filter_images exD 4 3).map imageSeq =
        some ((imageSeq exD).drop
          ((((imageCount exD : Int) - 4).fdiv 3 * 3).toNat)) ∧
      (maybe_filter_images exD 4 3).map stripImages =
        some (stripImages exD) ∧
      (maybe_filter_images exD 4 3).map imageCount =
        some (imageCount exD -
          ((((imageCount exD : Int) - 4).fdiv 3 * 3).toNat))) ∧
    (maybe_filter_images exD 4 3).map imageCount = some 4 :=
  ⟨by decide, by decide, by decide,
   c4_filter_removes_oldest exD 4 3 (by decide) (by decide) (by decide),
   by decide⟩

/-- C5: image-retention pruning is idempotent for every history, retention
    limit, and chunk size — a second application with the same parameters
    returns the history of the first unchanged (a zero chunk size is a
    ZeroDivisionError both times, modelled as none on both sides). -/
theorem c5_filter_idempotent (messages : List Message) (k c : Int) :
    (maybe_filter_images messages k c).bind
      (fun l => maybe_filter_images l k c) =
    maybe_filter_images messages k c := by
  by_cases hc : c = 0
  · simp [maybe_filter_images, hc]
  · obtain ⟨i1, c1, s1⟩ := dropMsgs_spec
      (((imageCount messages : Int) - k) -
        Int.fmod ((imageCount messages : Int) - k) c) messages
    cases hd : dropMsgs (((imageCount messages : Int) - k) -
        Int.fmod ((imageCount messages : Int) - k) c) messages with
    | mk n1 m' =>
      rw [hd] at i1 c1 s1
      have hval1 : maybe_filter_images messages k c = some m' := by
        simp only [maybe_filter_images, if_neg hc]
        rw [hd]
      rw [hval1]
      show maybe_filter_images m' k c = some m'
      by_cases hpos : ((imageCount messages : Int) - k) -
          Int.fmod ((imageCount messages : Int) - k) c ≤ 0
      · have hid := dropMsgs_nonpos _ messages hpos
        rw [hid] at hd
        injection hd with hd1 hd2
        subst hd2
        exact hval1
      · push_neg at hpos
        have hT2 : imageCount m' = imageCount messages -
            (((imageCount messages : Int) - k) -
              Int.fmod ((imageCount messages : Int) - k) c).toNat := by
          simp only [imageCount, i1, List.length_drop]
        by_cases hle : (((imageCount messages : Int) - k) -
            Int.fmod ((imageCount messages : Int) - k) c).toNat ≤
            imageCount messages
        · have ha2 : ((imageCount m' : Int)) - k =
              Int.fmod ((imageCount messages : Int) - k) c := by
            rw [hT2]
            omega
          have hR2 : ((imageCount m' : Int) - k) -
              Int.fmod ((imageCount m' : Int) - k) c = 0 := by
            rw [ha2, fmod_fmod_self _ hc]
            omega
          simp only [maybe_filter_images, if_neg hc]
          rw [hR2, dropMsgs_nonpos 0 m' (le_refl 0)]
        · have hlen : imageCount messages = (imageSeq messages).length := rfl
          have hempty : imageSeq m' = [] := by
            rw [i1]
            apply List.drop_eq_nil_of_le
            omega
          simp only [maybe_filter_images, if_neg hc]
          rw [dropMsgs_noImages _ m' hempty]
